import Mathlib

/-!
# maildav: the poller (`poller.go`)

A shallow embedding of `Poller.parseMsgPart`, `Poller.parseMessage`,
`Poller.scanDir`, `Poller.scanDirs`, `Poller.Poll` and `Poller.StartPolling`.

Go's `(value, error)` results are pairs whose second component is an
`Option Err` (`none` is the `nil` error).  The collaborators the poller only
consumes (IMAP session, MIME reader, uploader, connection pool, cancellation
context) are inputs: their answers are data or state-passing functions over an
abstract session state `σ`.  Log output is not modelled.
-/

namespace Maildav

/-! ## Errors -/

/-- Error values.  `ext` is an error handed over by a collaborator (IMAP
session, MIME reader, uploader); the other three are built by the
`go-errors` package the poller uses. -/
inductive Err where
  | ext (msg : String)
  | new (msg : String)
  | wrap (msg : String) (cause : Err)
  | multi (causes : List Err)

/-- `errors.New`. -/
def errors.New (text : String) : Err := Err.new text

/-- `errors.Wrap`. -/
def errors.Wrap (msg : String) (err : Err) : Err := Err.wrap msg err

/-- The causes one argument of `NewMultiError` contributes: a `nil` error
none, an aggregate its own causes, any other error itself. -/
def errors.causesOf : Option Err → List Err
  | none => []
  | some (Err.multi cs) => cs
  | some e => [e]

/-- Modelled from the spec: `errors.NewMultiError` of the `go-errors` package,
whose source is not part of the repository.  The spec's AggregateError is an
"ordered collection of zero or more independent failure causes", and "an
AggregateError with zero causes is equivalent to no error": the arguments'
causes are collected in order, and the result is `nil` when there is none. -/
def errors.NewMultiError (errs : List (Option Err)) : Option Err :=
  match errs.flatMap errors.causesOf with
  | [] => none
  | c :: cs => some (Err.multi (c :: cs))

/-! ## Data model -/

/-- Byte content of an attachment. -/
abbrev Bytes := List UInt8

/-- Destination configuration; the poller only passes it on. -/
structure DestinationConfig where
  Name : String
deriving DecidableEq

/-- The part of `PollerConfig` the poller reads. -/
structure PollerConfig where
  SourceName : String
  SourceDirectories : List String
  SourceAddresses : List String
  DestinationConfig : DestinationConfig
  DestinationDirectory : String
deriving DecidableEq

/-- `Poller`; its field `cp`, the connection pool, is passed to `Poll`
separately. -/
structure Poller where
  config : PollerConfig
deriving DecidableEq

/-- `DestinationInfo`. -/
structure DestinationInfo where
  Config : DestinationConfig
  Directory : String
deriving DecidableEq

/-- `Attachment`; the pointer field `DestinationInfo` is an `Option`
(`none` is the null pointer). -/
structure Attachment where
  Filename : String
  Content : Bytes
  DestinationInfo : Option DestinationInfo
deriving DecidableEq

/-- `NewPoller`. -/
def NewPoller (config : PollerConfig) : Poller × Option Err :=
  ({ config := config }, none)

/-! ## MIME entities, as the `go-message` reader presents them -/

/-- A header: its fields, and what `Header.ContentDisposition()` answers
(an error, or the disposition with its parameters). -/
structure Header where
  fields : List (String × String)
  ContentDisposition : Except String (String × List (String × String))

/-- `Header.Get`: the first value of the field, the empty string when the
field is absent. -/
def Header.Get (h : Header) (key : String) : String :=
  (h.fields.lookup key).getD ""

/-- A `message.Entity` that is one part of a multipart message: its header and
what `ioutil.ReadAll(part.Body)` answers. -/
structure Entity where
  Header : Header
  Body : Except String Bytes

/-- A `message.Entity` that is a whole message.  `MultipartReader` is `none`
when the message is not multipart; otherwise it is the sequence of answers of
`NextPart` (a part or an error) before `io.EOF`. -/
structure Message where
  Header : Header
  MultipartReader : Option (List (Except String Entity))

/-- What `message.Read` answers: a message, a message together with an
unknown-charset error (`message.IsUnknownCharset`), or another error. -/
inductive ReadResult where
  | ok (msg : Message)
  | unknownCharset (msg : Message) (err : String)
  | failed (err : String)

/-- An `imap.Message`: its uid and what `message.Read(raw.GetBody(section))`
answers. -/
structure RawMessage where
  Uid : Nat
  read : ReadResult

/-! ## Part and message parsing -/

/-- `Poller.parseMsgPart`. -/
def parseMsgPart (p : Poller) (part : Entity) : Option Attachment × Option Err :=
  match part.Header.ContentDisposition with
  | Except.error _ => (none, none)
  | Except.ok (disp, params) =>
    if disp = "attachment" then
      match params.lookup "filename" with
      | none =>
        (none, some (errors.New "unable to handle attachment without filename in header"))
      | some filename =>
        let encoding := part.Header.Get "Content-Transfer-Encoding"
        if encoding = "" then
          (none, some (errors.New
            "unable to handle attachment without \"Content-Transfer-Encoding\" header"))
        else
          match part.Body with
          | Except.error err =>
            (none, some (errors.Wrap "error reading body of message part" (Err.ext err)))
          | Except.ok content =>
            (some { Filename := filename
                    Content := content
                    DestinationInfo := some { Config := p.config.DestinationConfig
                                              Directory := p.config.DestinationDirectory } },
             none)
    else (none, none)

/-- The loop over `p.config.SourceAddresses` in `Poller.parseMessage`:
`found` is `foundValidSourceAddress` so far; a match sets it and breaks. -/
def sourceAddressLoop (address : String) : List String → Bool → Bool
  | [], found => found
  | sourceAddress :: rest, found =>
    if sourceAddress = address then true else sourceAddressLoop address rest found

/-- The value of `foundValidSourceAddress` after the loop of
`Poller.parseMessage`. -/
def foundValidSourceAddress (sourceAddresses : List String) (address : String) : Bool :=
  sourceAddressLoop address sourceAddresses (sourceAddresses.length == 0)

/-- The loop over `mr.NextPart()` of `Poller.parseMessage`; `attachments` is
the slice built so far. -/
def parseParts (p : Poller) :
    List (Except String Entity) → List Attachment → List Attachment × Option Err
  | [], attachments => (attachments, none)
  | Except.error err :: _, _ =>
    ([], some (errors.Wrap "error reading next part of multipart message" (Err.ext err)))
  | Except.ok part :: rest, attachments =>
    match parseMsgPart p part with
    | (_, some err) =>
      ([], some (errors.Wrap "error parsing part of multipart message" err))
    | (some attach, none) => parseParts p rest (attachments ++ [attach])
    | (none, none) => parseParts p rest attachments

/-- The extraction block of `Poller.parseMessage` (from
`attachments := []*Attachment{}` to the final `return`). -/
def extractAttachments (p : Poller) (msg : Message) : List Attachment × Option Err :=
  match msg.MultipartReader with
  | some mr => parseParts p mr []
  | none => ([], none)

/-- The error `Poller.parseMessage` returns for a sender that is not allowed. -/
def invalidSourceAddress : Err :=
  errors.Wrap "message from invalid source address"
    (errors.New "message from invalid source address")

/-- The part of `Poller.parseMessage` that follows `message.Read` when it
hands over a message: sender check, then extraction. -/
def parseRead (p : Poller) (msg : Message) : List Attachment × Option Err :=
  let address := msg.Header.Get "From"
  if !foundValidSourceAddress p.config.SourceAddresses address then
    ([], some invalidSourceAddress)
  else extractAttachments p msg

/-- `Poller.parseMessage`.  A `nil` slice is the empty list. -/
def parseMessage (p : Poller) (raw : RawMessage) : List Attachment × Option Err :=
  match raw.read with
  | ReadResult.failed err => ([], some (errors.Wrap "could not read message" (Err.ext err)))
  | ReadResult.unknownCharset msg _ => parseRead p msg
  | ReadResult.ok msg => parseRead p msg

/-! ## The protocol session, the connection pool and the uploader -/

/-- The calls the poller makes on its collaborators. -/
inductive Call where
  | connectAndLock
  | unlock
  | select (dir : String)
  | search
  | fetch (ids : List Nat)
  | upload (attachments : List Attachment)
  | wait (cancelled : Bool)
deriving DecidableEq

/-- One line of the call record: the call, and whether the connection lock
was held when it was made. -/
structure Entry where
  call : Call
  locked : Bool
deriving DecidableEq

/-- The state the poller runs in: the state of the collaborators, the
connection lock, and the record of the calls made so far (kept only to state
properties about the order of calls). -/
structure World (σ : Type) where
  session : σ
  locked : Bool
  calls : List Entry

/-- Append a call to the record. -/
def World.record {σ : Type} (w : World σ) (call : Call) : World σ :=
  { w with calls := w.calls ++ [{ call := call, locked := w.locked }] }

/-- The `IMAPClient` interface: `Select`, `Search` (the criteria are always
"without the seen flag") and `Fetch`, which delivers the messages sent on the
channel and then the completion error.  Session errors carry a message only. -/
structure IMAPClient (σ : Type) where
  Select : String → σ → Option String × σ
  Search : σ → Except String (List Nat) × σ
  Fetch : List Nat → σ → (List RawMessage × Option String) × σ

/-- The uploader (`Uploader.UploadAttachments`), a collaborator. -/
structure Uploader (σ : Type) where
  UploadAttachments : List Attachment → σ → Option String × σ

/-- The connection pool: `connect` is the outcome of looking up, creating or
reconnecting the session of the poller's source. -/
structure ConnectionPool (σ : Type) where
  connect : σ → Option Err × σ

/-- `c.Select(dir, false)`. -/
def IMAPClient.doSelect {σ : Type} (c : IMAPClient σ) (dir : String) (w : World σ) :
    Option String × World σ :=
  ((c.Select dir w.session).1,
   { (w.record (Call.select dir)) with session := (c.Select dir w.session).2 })

/-- `c.Search(unreadCrit)`. -/
def IMAPClient.doSearch {σ : Type} (c : IMAPClient σ) (w : World σ) :
    Except String (List Nat) × World σ :=
  ((c.Search w.session).1,
   { (w.record Call.search) with session := (c.Search w.session).2 })

/-- `c.Fetch(seqset, items, messages)` together with the draining of
`messages` and the receive from `done`. -/
def IMAPClient.doFetch {σ : Type} (c : IMAPClient σ) (ids : List Nat) (w : World σ) :
    (List RawMessage × Option String) × World σ :=
  ((c.Fetch ids w.session).1,
   { (w.record (Call.fetch ids)) with session := (c.Fetch ids w.session).2 })

/-- `uploader.UploadAttachments(attachments)`. -/
def Uploader.doUpload {σ : Type} (u : Uploader σ) (attachments : List Attachment)
    (w : World σ) : Option String × World σ :=
  ((u.UploadAttachments attachments w.session).1,
   { (w.record (Call.upload attachments)) with
     session := (u.UploadAttachments attachments w.session).2 })

/-- Modelled from the spec: `ConnectionPool.ConnectAndLock`, whose source is
not part of the repository.  It "acquires [the] exclusive lock (blocking until
available)" and connects or reconnects; `none` is the call that blocks because
the lock is held (nothing else runs that could release it).  On success the
lock is held by the caller; on failure it is not. -/
def ConnectionPool.ConnectAndLock {σ : Type} (cp : ConnectionPool σ) (w : World σ) :
    Option (Option Err × World σ) :=
  if w.locked then none
  else
    match cp.connect w.session with
    | (some err, s) =>
      some (some err, { (w.record Call.connectAndLock) with session := s, locked := false })
    | (none, s) =>
      some (none, { (w.record Call.connectAndLock) with session := s, locked := true })

/-- Modelled from the spec: `Unlock` of the pooled connection, whose source is
not part of the repository: the "scoped release" of the lock. -/
def Unlock {σ : Type} (w : World σ) : World σ :=
  { (w.record Call.unlock) with locked := false }

/-! ## Scanning -/

/-- The `for msg := range messages` loop of `Poller.scanDir`. -/
def scanMessages (p : Poller) :
    List RawMessage → List Attachment → Option Err → List Attachment × Option Err
  | [], attachments, errs => (attachments, errs)
  | msg :: rest, attachments, errs =>
    match parseMessage p msg with
    | (attach, some err) =>
      scanMessages p rest (attachments ++ attach) (errors.NewMultiError [errs, some err])
    | (attach, none) => scanMessages p rest (attachments ++ attach) errs

/-- `Poller.scanDir`.  After the successful `Search` the function's variable
`err` is `nil`; the loop declares an `err` of its own, so it is still `nil`
where the last `if` returns it. -/
def scanDir {σ : Type} (p : Poller) (c : IMAPClient σ) (dir : String) (w : World σ) :
    (List Attachment × Option Err) × World σ :=
  match c.doSelect dir w with
  | (some err, w1) => (([], some (Err.ext err)), w1)
  | (none, w1) =>
    match c.doSearch w1 with
    | (Except.error err, w2) => (([], some (Err.ext err)), w2)
    | (Except.ok ids, w2) =>
      if ids.length = 0 then (([], none), w2)
      else
        let err : Option Err := none
        match c.doFetch ids w2 with
        | ((messages, done), w3) =>
          match scanMessages p messages [] none with
          | (attachments, errs) =>
            match errors.NewMultiError [errs, done.map Err.ext] with
            | some _ => ((attachments, err), w3)
            | none => ((attachments, none), w3)

/-- The loop of `Poller.scanDirs`. -/
def scanDirsLoop {σ : Type} (p : Poller) (c : IMAPClient σ) :
    List String → List Attachment → Option Err → World σ →
    (List Attachment × Option Err) × World σ
  | [], attachments, errs, w => ((attachments, errs), w)
  | dir :: rest, attachments, errs, w =>
    match scanDir p c dir w with
    | ((attach, some err), w1) =>
      scanDirsLoop p c rest (attachments ++ attach) (errors.NewMultiError [errs, some err]) w1
    | ((attach, none), w1) => scanDirsLoop p c rest (attachments ++ attach) errs w1

/-- `Poller.scanDirs`. -/
def scanDirs {σ : Type} (p : Poller) (c : IMAPClient σ) (w : World σ) :
    (List Attachment × Option Err) × World σ :=
  scanDirsLoop p c p.config.SourceDirectories [] none w

/-- `Poller.Poll`; `cp` is the poller's field `cp`, and `c` the session
`ConnectAndLock` hands out.  The deferred `c.Unlock()` runs after the result is
computed.  `none`: `ConnectAndLock` blocks. -/
def Poll {σ : Type} (p : Poller) (cp : ConnectionPool σ) (c : IMAPClient σ) (w : World σ) :
    Option ((List Attachment × Option Err) × World σ) :=
  match cp.ConnectAndLock w with
  | none => none
  | some (some err, w1) => some (([], some err), w1)
  | some (none, w1) =>
    match scanDirs p c w1 with
    | ((attachments, some err), w2) =>
      some ((attachments, some (errors.Wrap "error scanning directories" err)), Unlock w2)
    | ((attachments, none), w2) => some ((attachments, none), Unlock w2)

/-! ## The polling loop -/

/-- The loop of `Poller.StartPolling`.  `ctxDone i` tells which case the
`select` of the `i`-th wait (counted from 0) takes: `true` when `ctx.Done()`
is received, that is when the signal is or becomes cancelled before the timer
of that wait fires, `false` when the timer fires first.  `fuel` bounds the
number of cycles; `none` is a run that has not returned (out of fuel, or
blocked in `Poll`). -/
def StartPollingLoop {σ : Type} (p : Poller) (cp : ConnectionPool σ) (c : IMAPClient σ)
    (uploader : Uploader σ) (ctxDone : Nat → Bool) :
    Nat → Nat → World σ → Option (Option Err × World σ)
  | 0, _, _ => none
  | fuel + 1, i, w =>
    match Poll p cp c w with
    | none => none
    | some ((attachments, _), w1) =>
      match uploader.doUpload attachments w1 with
      | (_, w2) =>
        if ctxDone i then some (none, w2.record (Call.wait true))
        else StartPollingLoop p cp c uploader ctxDone fuel (i + 1) (w2.record (Call.wait false))

/-- `Poller.StartPolling`. -/
def StartPolling {σ : Type} (p : Poller) (cp : ConnectionPool σ) (c : IMAPClient σ)
    (uploader : Uploader σ) (ctxDone : Nat → Bool) (fuel : Nat) (w : World σ) :
    Option (Option Err × World σ) :=
  StartPollingLoop p cp c uploader ctxDone fuel 0 w

/-! ## Vocabulary of the properties -/

/-- This `raw` message is readable, and `msg` is what `message.Read` hands
over (with or without an unknown-charset warning). -/
def Readable (raw : RawMessage) (msg : Message) : Prop :=
  raw.read = ReadResult.ok msg ∨ ∃ err, raw.read = ReadResult.unknownCharset msg err

/-- The sender of `msg` is accepted by the allow-list of `p`, in the words of
the specification: the list is empty, or the "From" value is one of its
entries. -/
def SenderAccepted (p : Poller) (msg : Message) : Prop :=
  p.config.SourceAddresses = [] ∨ msg.Header.Get "From" ∈ p.config.SourceAddresses

/-- The part's Content-Disposition is "attachment". -/
def Entity.isAttachment (part : Entity) : Bool :=
  match part.Header.ContentDisposition with
  | Except.ok (disp, _) => disp == "attachment"
  | Except.error _ => false

/-- The part's Content-Disposition carries a `filename` parameter. -/
def Entity.hasFilename (part : Entity) : Bool :=
  match part.Header.ContentDisposition with
  | Except.ok (_, params) => (params.lookup "filename").isSome
  | Except.error _ => false

/-- The part has a non-empty Content-Transfer-Encoding header. -/
def Entity.hasEncoding (part : Entity) : Bool :=
  part.Header.Get "Content-Transfer-Encoding" != ""

/-- The body of the part can be read to its end. -/
def Entity.readable (part : Entity) : Bool :=
  match part.Body with
  | Except.ok _ => true
  | Except.error _ => false

/-- The record `a` is the Attachment of `part`: the part is
attachment-dispositioned, `a` has its filename and its body bytes, and a
DestinationInfo with the poller's destination config and directory. -/
def IsAttachmentOf (p : Poller) (a : Attachment) (part : Entity) : Prop :=
  ∃ params, part.Header.ContentDisposition = Except.ok ("attachment", params) ∧
    params.lookup "filename" = some a.Filename ∧
    part.Body = Except.ok a.Content ∧
    a.DestinationInfo = some { Config := p.config.DestinationConfig
                               Directory := p.config.DestinationDirectory }

/-- The poller with the allow-list of `p` emptied. -/
def Poller.withoutAllowList (p : Poller) : Poller :=
  { config := { p.config with SourceAddresses := [] } }

/-! ## Concrete inputs -/

/-- A poller without allow-list. -/
def openPoller : Poller :=
  { config := { SourceName := "mail", SourceDirectories := ["INBOX", "Archive"],
                SourceAddresses := [], DestinationConfig := { Name := "dav" },
                DestinationDirectory := "/inbox" } }

/-- A poller with an allow-list of one address. -/
def strictPoller : Poller :=
  { config := { openPoller.config with SourceAddresses := ["scanner@example.org"] } }

/-- A header with the given fields and no Content-Disposition. -/
def plainHeader (fields : List (String × String)) : Header :=
  { fields := fields, ContentDisposition := Except.error "mime: no media type" }

/-- A well-formed attachment part. -/
def goodPart : Entity :=
  { Header := { fields := [("Content-Transfer-Encoding", "base64")],
                ContentDisposition := Except.ok ("attachment", [("filename", "scan.pdf")]) },
    Body := Except.ok [37, 80, 68, 70] }

/-- The Attachment of `goodPart`. -/
def goodAttachment : Attachment :=
  { Filename := "scan.pdf", Content := [37, 80, 68, 70],
    DestinationInfo := some { Config := { Name := "dav" }, Directory := "/inbox" } }

/-- An attachment part without `filename` parameter. -/
def namelessPart : Entity :=
  { Header := { fields := [("Content-Transfer-Encoding", "base64")],
                ContentDisposition := Except.ok ("attachment", []) },
    Body := Except.ok [1, 2] }

/-- An attachment part with filename and encoding whose body cannot be read. -/
def unreadablePart : Entity :=
  { Header := { fields := [("Content-Transfer-Encoding", "base64")],
                ContentDisposition := Except.ok ("attachment", [("filename", "broken.bin")]) },
    Body := Except.error "illegal base64 data at input byte 0" }

/-- A part that is not an attachment (the text of the mail). -/
def textPart : Entity :=
  { Header := plainHeader [("Content-Type", "text/plain")], Body := Except.ok [104, 105] }

/-- A multipart message with the given sender and parts. -/
def multipart (sender : String) (parts : List (Except String Entity)) : Message :=
  { Header := plainHeader [("From", sender)], MultipartReader := some parts }

/-- A message with a well-formed attachment followed by one without filename. -/
def siblingMessage : RawMessage :=
  { Uid := 7, read := ReadResult.ok (multipart "scanner@example.org"
      [Except.ok goodPart, Except.ok namelessPart]) }

/-- A message with a text part and a well-formed attachment. -/
def scanMessage : RawMessage :=
  { Uid := 8, read := ReadResult.ok (multipart "scanner@example.org"
      [Except.ok textPart, Except.ok goodPart]) }

/-- The same message from a sender whose address differs in case only. -/
def otherCaseMessage : RawMessage :=
  { Uid := 9, read := ReadResult.ok (multipart "Scanner@example.org"
      [Except.ok textPart, Except.ok goodPart]) }

/-- A message whose only attachment part has an unreadable body. -/
def brokenBodyMessage : RawMessage :=
  { Uid := 10, read := ReadResult.ok (multipart "scanner@example.org"
      [Except.ok unreadablePart]) }

/-- A multipart message whose part stream breaks off after the first part. -/
def truncatedMessage : RawMessage :=
  { Uid := 12, read := ReadResult.ok (multipart "scanner@example.org"
      [Except.ok goodPart, Except.error "multipart: NextPart: EOF"]) }

/-- The parts of `siblingMessage`, sent from an address that is not on the
allow-list of `strictPoller`. -/
def strangerMessage : RawMessage :=
  { Uid := 13, read := ReadResult.ok (multipart "stranger@example.org"
      [Except.ok goodPart, Except.ok namelessPart]) }

/-- A cancellation signal that is taken in the second wait: the first wait
ends by its timer. -/
def cancelledInSecondWait : Nat → Bool := fun i => decide (1 ≤ i)

/-- A message `message.Read` cannot read. -/
def unreadableMessage : RawMessage :=
  { Uid := 11, read := ReadResult.failed "malformed MIME header line" }

/-- What `scanDirs` meets at one directory: the answer of `Select`, and the
result of `scanDir`. -/
structure DirRun where
  dir : String
  selectErr : Option String
  attachments : List Attachment
  err : Option Err

/-- The directories of a run of `scanDirs`, in order, each scanned in the
world its predecessors left. -/
def dirRuns {σ : Type} (p : Poller) (c : IMAPClient σ) : List String → World σ → List DirRun
  | [], _ => []
  | dir :: rest, w =>
    { dir := dir, selectErr := (c.Select dir w.session).1,
      attachments := (scanDir p c dir w).1.1, err := (scanDir p c dir w).1.2 } ::
      dirRuns p c rest (scanDir p c dir w).2

/-- The aggregate of a list of causes: `nil` when there is none. -/
def aggregate : List Err → Option Err
  | [] => none
  | c :: cs => some (Err.multi (c :: cs))

/-- The causes the failed `Select`s of a run contribute, in directory order. -/
def selectFailures (runs : List DirRun) : List Err :=
  (runs.filterMap (fun r => r.selectErr)).map Err.ext

/-- The directories of a run whose `Select` succeeded, in directory order. -/
def selected (runs : List DirRun) : List DirRun :=
  runs.filter (fun r => r.selectErr.isNone)

/-- The call is one of the session calls of a directory scan. -/
def Call.isScan : Call → Bool
  | Call.select _ => true
  | Call.search => true
  | Call.fetch _ => true
  | _ => false

/-- The directory a `Select` call names. -/
def Call.selected : Call → Option String
  | Call.select dir => some dir
  | _ => none

/-- The number of `Poll`s started in a call record (each starts with
`ConnectAndLock`). -/
def pollsStarted (calls : List Entry) : Nat :=
  calls.countP (fun e => e.call == Call.connectAndLock)

/-- The number of `UploadAttachments` calls in a call record. -/
def uploadsMade (calls : List Entry) : Nat :=
  calls.countP (fun e => match e.call with
    | Call.upload _ => true
    | _ => false)

/-- The number of inter-cycle waits in a call record. -/
def waitsMade (calls : List Entry) : Nat :=
  calls.countP (fun e => match e.call with
    | Call.wait _ => true
    | _ => false)

/-- A session with one existing directory, "INBOX", holding two unread
messages: one that cannot be read and one with an attachment. -/
def mailbox : IMAPClient Unit :=
  { Select := fun dir s => (if dir = "INBOX" then none else some "NO Mailbox doesn't exist", s),
    Search := fun s => (Except.ok [1, 2], s),
    Fetch := fun _ s => (([unreadableMessage, scanMessage], none), s) }

/-- A pool whose connection attempt succeeds. -/
def reachablePool : ConnectionPool Unit := { connect := fun s => (none, s) }

/-- A pool whose connection attempt fails. -/
def unreachablePool : ConnectionPool Unit :=
  { connect := fun s => (some (Err.ext "dial tcp: connection refused"), s) }

/-- An uploader that accepts everything. -/
def davUploader : Uploader Unit := { UploadAttachments := fun _ s => (none, s) }

/-- The world before the first cycle: lock free, no call made. -/
def idle : World Unit := { session := (), locked := false, calls := [] }

/-- The world after a successful `ConnectAndLock` in `idle`. -/
def connected : World Unit :=
  { session := (), locked := true,
    calls := [{ call := Call.connectAndLock, locked := false }] }

/-! ## Sender policy -/

theorem sourceAddressLoop_eq (address : String) (addrs : List String) (found : Bool) :
    sourceAddressLoop address addrs found = (decide (address ∈ addrs) || found) := by
  induction addrs with
  | nil => simp [sourceAddressLoop]
  | cons a rest ih =>
    by_cases h : a = address
    · simp [sourceAddressLoop, h]
    · have h2 : ¬ address = a := fun e => h e.symm
      simp [sourceAddressLoop, h, h2, ih]

theorem foundValidSourceAddress_iff (addrs : List String) (address : String) :
    foundValidSourceAddress addrs address = true ↔ addrs = [] ∨ address ∈ addrs := by
  unfold foundValidSourceAddress
  rw [sourceAddressLoop_eq]
  cases addrs with
  | nil => simp
  | cons a rest => simp

/-! ## Extraction -/

theorem parseParts_error_nil (p : Poller) (parts : List (Except String Entity)) :
    ∀ acc, (parseParts p parts acc).2 = none ∨ (parseParts p parts acc).1 = [] := by
  induction parts with
  | nil => intro acc; simp [parseParts]
  | cons x rest ih =>
    intro acc
    cases x with
    | error e => simp [parseParts]
    | ok part =>
      unfold parseParts
      rcases hq : parseMsgPart p part with ⟨a, e⟩
      cases e with
      | some err => simp
      | none =>
        cases a with
        | some attach => simpa using ih (acc ++ [attach])
        | none => simpa using ih acc

theorem parseParts_ne_invalid (p : Poller) (parts : List (Except String Entity)) :
    ∀ acc, (parseParts p parts acc).2 ≠ some invalidSourceAddress := by
  induction parts with
  | nil => intro acc; simp [parseParts]
  | cons x rest ih =>
    intro acc
    cases x with
    | error e => simp [parseParts, invalidSourceAddress, errors.Wrap]
    | ok part =>
      unfold parseParts
      rcases hq : parseMsgPart p part with ⟨a, e⟩
      cases e with
      | some err => simp [invalidSourceAddress, errors.Wrap]
      | none =>
        cases a with
        | some attach => simpa using ih (acc ++ [attach])
        | none => simpa using ih acc

theorem parseMsgPart_congr (p q : Poller)
    (hc : p.config.DestinationConfig = q.config.DestinationConfig)
    (hd : p.config.DestinationDirectory = q.config.DestinationDirectory) (part : Entity) :
    parseMsgPart p part = parseMsgPart q part := by
  unfold parseMsgPart
  rw [hc, hd]

theorem parseParts_congr (p q : Poller)
    (hc : p.config.DestinationConfig = q.config.DestinationConfig)
    (hd : p.config.DestinationDirectory = q.config.DestinationDirectory)
    (parts : List (Except String Entity)) :
    ∀ acc, parseParts p parts acc = parseParts q parts acc := by
  induction parts with
  | nil => intro acc; simp [parseParts]
  | cons x rest ih =>
    intro acc
    cases x with
    | error e => simp [parseParts]
    | ok part =>
      unfold parseParts
      rw [parseMsgPart_congr p q hc hd part]
      rcases parseMsgPart q part with ⟨a, e⟩
      cases e with
      | some err => simp
      | none =>
        cases a with
        | some attach => simpa using ih (acc ++ [attach])
        | none => simpa using ih acc

theorem extractAttachments_congr (p q : Poller)
    (hc : p.config.DestinationConfig = q.config.DestinationConfig)
    (hd : p.config.DestinationDirectory = q.config.DestinationDirectory) (msg : Message) :
    extractAttachments p msg = extractAttachments q msg := by
  unfold extractAttachments
  cases msg.MultipartReader with
  | none => rfl
  | some mr => exact parseParts_congr p q hc hd mr []

theorem extractAttachments_ne_invalid (p : Poller) (msg : Message) :
    (extractAttachments p msg).2 ≠ some invalidSourceAddress := by
  unfold extractAttachments
  cases msg.MultipartReader with
  | none => simp
  | some mr => exact parseParts_ne_invalid p mr []

theorem parseMessage_of_readable (p : Poller) (raw : RawMessage) (msg : Message)
    (hread : Readable raw msg) : parseMessage p raw = parseRead p msg := by
  unfold parseMessage
  rcases hread with h | ⟨e, h⟩ <;> rw [h]

theorem parseRead_accepted (p : Poller) (msg : Message) (h : SenderAccepted p msg) :
    parseRead p msg = extractAttachments p msg := by
  have hf := (foundValidSourceAddress_iff p.config.SourceAddresses (msg.Header.Get "From")).2 h
  simp [parseRead, hf]

theorem parseRead_rejected (p : Poller) (msg : Message) (h : ¬ SenderAccepted p msg) :
    parseRead p msg = ([], some invalidSourceAddress) := by
  have hf : foundValidSourceAddress p.config.SourceAddresses (msg.Header.Get "From") = false := by
    cases hb : foundValidSourceAddress p.config.SourceAddresses (msg.Header.Get "From") with
    | false => rfl
    | true => exact absurd ((foundValidSourceAddress_iff _ _).1 hb) h
  simp [parseRead, hf]

/-! ## Parts -/

theorem parseMsgPart_not_attachment (p : Poller) (part : Entity)
    (h : part.isAttachment = false) : parseMsgPart p part = (none, none) := by
  unfold Entity.isAttachment at h
  unfold parseMsgPart
  cases hcd : part.Header.ContentDisposition with
  | error e => rfl
  | ok dp =>
    obtain ⟨disp, params⟩ := dp
    rw [hcd] at h
    have hne : ¬ disp = "attachment" := by simpa using h
    simp [hne]

theorem parseMsgPart_wellformed (p : Poller) (part : Entity)
    (ha : part.isAttachment = true) (hf : part.hasFilename = true)
    (he : part.hasEncoding = true) (hr : part.readable = true) :
    ∃ a, parseMsgPart p part = (some a, none) ∧ IsAttachmentOf p a part := by
  unfold Entity.isAttachment at ha
  unfold Entity.hasFilename at hf
  unfold Entity.hasEncoding at he
  unfold Entity.readable at hr
  have hne : ¬ part.Header.Get "Content-Transfer-Encoding" = "" := by simpa using he
  rcases hcd : part.Header.ContentDisposition with e | ⟨disp, params⟩
  · rw [hcd] at ha; simp at ha
  · rw [hcd] at ha hf
    have hd : disp = "attachment" := by simpa using ha
    subst hd
    dsimp only at hf
    rcases hl : List.lookup "filename" params with _ | filename
    · rw [hl] at hf; simp at hf
    · rcases hb : part.Body with e | content
      · rw [hb] at hr; simp at hr
      · refine ⟨{ Filename := filename, Content := content,
                  DestinationInfo := some { Config := p.config.DestinationConfig
                                            Directory := p.config.DestinationDirectory } },
          ?_, params, hcd, hl, hb, rfl⟩
        simp [parseMsgPart, hcd, hl, hne, hb]

theorem parseMsgPart_without_filename (p : Poller) (part : Entity)
    (ha : part.isAttachment = true) (hf : part.hasFilename = false) :
    parseMsgPart p part =
      (none, some (errors.New "unable to handle attachment without filename in header")) := by
  unfold Entity.isAttachment at ha
  unfold Entity.hasFilename at hf
  rcases hcd : part.Header.ContentDisposition with e | ⟨disp, params⟩
  · rw [hcd] at ha; simp at ha
  · rw [hcd] at ha hf
    have hd : disp = "attachment" := by simpa using ha
    subst hd
    dsimp only at hf
    rcases hl : List.lookup "filename" params with _ | filename
    · simp [parseMsgPart, hcd, hl]
    · rw [hl] at hf; simp at hf

theorem parseParts_wellformed (p : Poller) (parts : List Entity) :
    (∀ part ∈ parts, part.isAttachment = true →
      part.hasFilename = true ∧ part.hasEncoding = true ∧ part.readable = true) →
    ∀ acc, ∃ atts, parseParts p (parts.map Except.ok) acc = (acc ++ atts, none) ∧
      List.Forall₂ (IsAttachmentOf p) atts (parts.filter Entity.isAttachment) := by
  induction parts with
  | nil => intro _ acc; exact ⟨[], by simp [parseParts]⟩
  | cons part rest ih =>
    intro h acc
    have hrest := ih (fun q hq => h q (List.mem_cons_of_mem _ hq))
    cases ha : part.isAttachment with
    | false =>
      obtain ⟨atts, h1, h2⟩ := hrest acc
      refine ⟨atts, ?_, ?_⟩
      · simp only [List.map_cons, parseParts, parseMsgPart_not_attachment p part ha]
        exact h1
      · simpa [List.filter, ha] using h2
    | true =>
      obtain ⟨hf, he, hr⟩ := h part (List.mem_cons_self _ _) ha
      obtain ⟨a, hpa, hof⟩ := parseMsgPart_wellformed p part ha hf he hr
      obtain ⟨atts, h1, h2⟩ := hrest (acc ++ [a])
      refine ⟨a :: atts, ?_, ?_⟩
      · simp only [List.map_cons, parseParts, hpa]
        simpa using h1
      · simpa [List.filter, ha] using List.Forall₂.cons hof h2

theorem parseParts_ok_initial (p : Poller) (pre : List Entity)
    (rest : List (Except String Entity)) :
    (∀ q ∈ pre, (parseMsgPart p q).2 = none) →
    ∀ acc, parseParts p (pre.map Except.ok ++ rest) acc =
      parseParts p rest (acc ++ pre.filterMap (fun q => (parseMsgPart p q).1)) := by
  induction pre with
  | nil => intro _ acc; simp
  | cons q qs ih =>
    intro h acc
    have hq := h q (List.mem_cons_self _ _)
    have hqs := ih (fun r hr => h r (List.mem_cons_of_mem _ hr))
    rcases hpq : parseMsgPart p q with ⟨a, e⟩
    rw [hpq] at hq
    simp only at hq
    subst hq
    cases a with
    | none =>
      rw [List.map_cons, List.cons_append, parseParts, hpq]
      simp only
      rw [hqs acc]
      simp [List.filterMap_cons, hpq]
    | some attach =>
      rw [List.map_cons, List.cons_append, parseParts, hpq]
      simp only
      rw [hqs (acc ++ [attach])]
      simp [List.filterMap_cons, hpq]

theorem parseMsgPart_ok_of_wellformed (p : Poller) (q : Entity)
    (h : q.isAttachment = true →
      q.hasFilename = true ∧ q.hasEncoding = true ∧ q.readable = true) :
    (parseMsgPart p q).2 = none := by
  cases ha : q.isAttachment with
  | false => rw [parseMsgPart_not_attachment p q ha]
  | true =>
    obtain ⟨hf, he, hr⟩ := h ha
    obtain ⟨a, hpa, _⟩ := parseMsgPart_wellformed p q ha hf he hr
    rw [hpa]

/-- C1, as the code has it: when an attachment-dispositioned part lacks the
`filename` parameter and the parts before it are read and are well-formed or
not attachments, `parseMessage` fails as a whole: it returns no Attachment at
all, whatever the sibling parts are, and the error "error parsing part of
multipart message" around the part's error. -/
theorem parseMessage_part_without_filename (p : Poller) (raw : RawMessage) (msg : Message)
    (pre : List Entity) (bad : Entity) (post : List (Except String Entity))
    (hread : Readable raw msg) (hsender : SenderAccepted p msg)
    (hmr : msg.MultipartReader = some (pre.map Except.ok ++ Except.ok bad :: post))
    (hpre : ∀ q ∈ pre, q.isAttachment = true →
      q.hasFilename = true ∧ q.hasEncoding = true ∧ q.readable = true)
    (hbad : bad.isAttachment = true) (hname : bad.hasFilename = false) :
    parseMessage p raw =
      ([], some (errors.Wrap "error parsing part of multipart message"
        (errors.New "unable to handle attachment without filename in header"))) := by
  rw [parseMessage_of_readable p raw msg hread, parseRead_accepted p msg hsender]
  unfold extractAttachments
  rw [hmr]
  simp only
  rw [parseParts_ok_initial p pre _
    (fun q hq => parseMsgPart_ok_of_wellformed p q (hpre q hq))]
  simp only [parseParts, parseMsgPart_without_filename p bad hbad hname]

/-- Witness of C1 (as the code has it), on a message with a well-formed
attachment followed by one without filename. -/
theorem parseMessage_part_without_filename_witness :
    parseMessage openPoller siblingMessage =
      ([], some (errors.Wrap "error parsing part of multipart message"
        (errors.New "unable to handle attachment without filename in header"))) :=
  parseMessage_part_without_filename openPoller siblingMessage
    (multipart "scanner@example.org" [Except.ok goodPart, Except.ok namelessPart])
    [goodPart] namelessPart [] (Or.inl rfl) (Or.inl rfl) rfl (by decide) rfl rfl

/-- C1 fails on `siblingMessage`: its first part is a well-formed attachment
(alone it yields `goodAttachment`), its second part lacks the filename, and
`parseMessage` returns no Attachment at all. -/
theorem siblingMessage_attachment_lost :
    SenderAccepted openPoller (multipart "scanner@example.org"
      [Except.ok goodPart, Except.ok namelessPart]) ∧
    goodPart.isAttachment = true ∧ goodPart.hasFilename = true ∧
    goodPart.hasEncoding = true ∧ goodPart.readable = true ∧
    namelessPart.isAttachment = true ∧ namelessPart.hasFilename = false ∧
    parseMsgPart openPoller goodPart = (some goodAttachment, none) ∧
    (parseMessage openPoller siblingMessage).1 = [] ∧
    (parseMessage openPoller siblingMessage).2 =
      some (errors.Wrap "error parsing part of multipart message"
        (errors.New "unable to handle attachment without filename in header")) :=
  ⟨Or.inl rfl, rfl, rfl, rfl, rfl, rfl, rfl, rfl, rfl, rfl⟩

/-- C5, as the code has it: for a multipart message from an accepted sender
whose part stream is read to its end without error and whose
attachment-dispositioned parts all carry a `filename` parameter, a non-empty
Content-Transfer-Encoding and a readable body, `parseMessage` returns without
error exactly one Attachment per attachment-dispositioned part, in encounter
order, each with the part's filename and body bytes and a DestinationInfo
holding the poller's destination config and directory. -/
theorem parseMessage_wellformed (p : Poller) (raw : RawMessage) (msg : Message)
    (parts : List Entity)
    (hread : Readable raw msg) (hsender : SenderAccepted p msg)
    (hmr : msg.MultipartReader = some (parts.map Except.ok))
    (hparts : ∀ part ∈ parts, part.isAttachment = true →
      part.hasFilename = true ∧ part.hasEncoding = true ∧ part.readable = true) :
    (parseMessage p raw).2 = none ∧
    List.Forall₂ (IsAttachmentOf p) (parseMessage p raw).1
      (parts.filter Entity.isAttachment) := by
  rw [parseMessage_of_readable p raw msg hread, parseRead_accepted p msg hsender]
  unfold extractAttachments
  rw [hmr]
  obtain ⟨atts, h1, h2⟩ := parseParts_wellformed p parts hparts []
  dsimp only
  rw [h1]
  exact ⟨rfl, by simpa using h2⟩

/-- Witness of C5 (as the code has it), on a message with a text part and a
well-formed attachment. -/
theorem parseMessage_wellformed_witness :
    (parseMessage openPoller scanMessage).2 = none ∧
    List.Forall₂ (IsAttachmentOf openPoller) (parseMessage openPoller scanMessage).1
      ([textPart, goodPart].filter Entity.isAttachment) :=
  parseMessage_wellformed openPoller scanMessage
    (multipart "scanner@example.org" [Except.ok textPart, Except.ok goodPart])
    [textPart, goodPart] (Or.inl rfl) (Or.inl rfl) rfl (by decide)

/-- C5 fails on `brokenBodyMessage` and on `truncatedMessage`: every
attachment-dispositioned part carries a filename and a non-empty
Content-Transfer-Encoding, yet `parseMessage` returns an error and no
Attachment, because a body cannot be read, or because the part stream breaks
off. -/
theorem brokenBodyMessage_fails :
    unreadablePart.isAttachment = true ∧ unreadablePart.hasFilename = true ∧
    unreadablePart.hasEncoding = true ∧
    parseMessage openPoller brokenBodyMessage =
      ([], some (errors.Wrap "error parsing part of multipart message"
        (errors.Wrap "error reading body of message part"
          (Err.ext "illegal base64 data at input byte 0")))) ∧
    parseMessage openPoller truncatedMessage =
      ([], some (errors.Wrap "error reading next part of multipart message"
        (Err.ext "multipart: NextPart: EOF"))) :=
  ⟨rfl, rfl, rfl, rfl, rfl⟩

/-! ## Sender policy of `parseMessage` -/

/-- C4, as the code has it: for a readable message, the sender check of
`parseMessage` passes iff the allow-list is empty or the "From" value is
equal, as a string, to one of its entries; `parseMessage` returns no
attachment and the invalid-source error exactly when the sender is rejected,
and for an accepted sender it returns what it returns under an empty
allow-list.  Under an empty allow-list, a multipart message whose part stream
is read to its end without error and whose attachment-dispositioned parts all
carry a filename, a non-empty Content-Transfer-Encoding and a readable body
yields without error exactly the Attachments of its attachment-dispositioned
parts, in order; a message that is not multipart yields none, without
error. -/
theorem parseMessage_sender_policy (p : Poller) (raw : RawMessage) (msg : Message)
    (hread : Readable raw msg) :
    (foundValidSourceAddress p.config.SourceAddresses (msg.Header.Get "From") = true ↔
      SenderAccepted p msg) ∧
    (parseMessage p raw = ([], some invalidSourceAddress) ↔ ¬ SenderAccepted p msg) ∧
    (SenderAccepted p msg → parseMessage p raw = parseMessage p.withoutAllowList raw) ∧
    (∀ parts : List Entity, msg.MultipartReader = some (parts.map Except.ok) →
      (∀ part ∈ parts, part.isAttachment = true →
        part.hasFilename = true ∧ part.hasEncoding = true ∧ part.readable = true) →
      (parseMessage p.withoutAllowList raw).2 = none ∧
      List.Forall₂ (IsAttachmentOf p) (parseMessage p.withoutAllowList raw).1
        (parts.filter Entity.isAttachment)) ∧
    (msg.MultipartReader = none → parseMessage p.withoutAllowList raw = ([], none)) := by
  have hopen : parseMessage p.withoutAllowList raw = extractAttachments p msg := by
    rw [parseMessage_of_readable _ raw msg hread,
      parseRead_accepted p.withoutAllowList msg (Or.inl rfl)]
    exact extractAttachments_congr p.withoutAllowList p rfl rfl msg
  refine ⟨foundValidSourceAddress_iff _ _, ⟨?_, ?_⟩, ?_, ?_, ?_⟩
  · intro h hacc
    rw [parseMessage_of_readable p raw msg hread, parseRead_accepted p msg hacc] at h
    exact extractAttachments_ne_invalid p msg (by rw [h])
  · intro h
    rw [parseMessage_of_readable p raw msg hread, parseRead_rejected p msg h]
  · intro h
    rw [hopen, parseMessage_of_readable p raw msg hread, parseRead_accepted p msg h]
  · intro parts hmr hparts
    rw [hopen]
    unfold extractAttachments
    rw [hmr]
    obtain ⟨atts, h1, h2⟩ := parseParts_wellformed p parts hparts []
    dsimp only
    rw [h1]
    exact ⟨rfl, by simpa using h2⟩
  · intro hnone
    rw [hopen]
    unfold extractAttachments
    rw [hnone]

/-- Witness of C4 (as the code has it): an address that differs in case only
is rejected, and the same message, whose parts are well-formed, yields its
attachment under an empty allow-list. -/
theorem parseMessage_sender_policy_witness :
    parseMessage strictPoller otherCaseMessage = ([], some invalidSourceAddress) ∧
    ((parseMessage strictPoller.withoutAllowList otherCaseMessage).2 = none ∧
      List.Forall₂ (IsAttachmentOf strictPoller)
        (parseMessage strictPoller.withoutAllowList otherCaseMessage).1
        ([textPart, goodPart].filter Entity.isAttachment)) :=
  have h := parseMessage_sender_policy strictPoller otherCaseMessage
    (multipart "Scanner@example.org" [Except.ok textPart, Except.ok goodPart]) (Or.inl rfl)
  ⟨h.2.1.2 (by unfold SenderAccepted; decide), h.2.2.2.1 [textPart, goodPart] rfl (by decide)⟩

/-- C4 fails on `strangerMessage`: under the allow-list of `strictPoller` it
is rejected with the invalid-source error; its first part is a valid
attachment (alone it yields `goodAttachment`), yet under an empty allow-list
`parseMessage` returns no Attachment at all, and an error, because its second
part lacks the filename. -/
theorem strangerMessage_attachment_lost :
    parseMessage strictPoller strangerMessage = ([], some invalidSourceAddress) ∧
    strictPoller.withoutAllowList.config.SourceAddresses = [] ∧
    goodPart.isAttachment = true ∧ goodPart.hasFilename = true ∧
    goodPart.hasEncoding = true ∧ goodPart.readable = true ∧
    parseMsgPart strictPoller.withoutAllowList goodPart = (some goodAttachment, none) ∧
    parseMessage strictPoller.withoutAllowList strangerMessage =
      ([], some (errors.Wrap "error parsing part of multipart message"
        (errors.New "unable to handle attachment without filename in header"))) :=
  ⟨rfl, rfl, rfl, rfl, rfl, rfl, rfl, rfl⟩

/-! ## Scanning one directory -/

theorem parseMessage_error_nil (p : Poller) (raw : RawMessage) :
    (parseMessage p raw).2 = none ∨ (parseMessage p raw).1 = [] := by
  unfold parseMessage
  have hread : ∀ msg, (parseRead p msg).2 = none ∨ (parseRead p msg).1 = [] := by
    intro msg
    unfold parseRead
    dsimp only
    split
    · exact Or.inr rfl
    · unfold extractAttachments
      cases msg.MultipartReader with
      | none => exact Or.inl rfl
      | some mr => exact parseParts_error_nil p mr []
  cases raw.read with
  | failed e => exact Or.inr rfl
  | ok msg => exact hread msg
  | unknownCharset msg e => exact hread msg

theorem scanMessages_attachments (p : Poller) (messages : List RawMessage) :
    ∀ acc errs, (scanMessages p messages acc errs).1 =
      acc ++ messages.flatMap (fun msg => (parseMessage p msg).1) := by
  induction messages with
  | nil => intro acc errs; simp [scanMessages]
  | cons msg rest ih =>
    intro acc errs
    unfold scanMessages
    rcases hm : parseMessage p msg with ⟨attach, e⟩
    cases e with
    | none => simp [ih, hm]
    | some err => simp [ih, hm]

theorem scanDir_of_search_ok {σ : Type} (p : Poller) (c : IMAPClient σ) (dir : String)
    (w : World σ) (ids : List Nat) (s1 s2 : σ)
    (hsel : c.Select dir w.session = (none, s1))
    (hsearch : c.Search s1 = (Except.ok ids, s2)) :
    (scanDir p c dir w).1 =
      ((if ids.length = 0 then [] else (c.Fetch ids s2).1.1).flatMap
        (fun msg => (parseMessage p msg).1), none) := by
  unfold scanDir
  simp only [IMAPClient.doSelect, IMAPClient.doSearch, IMAPClient.doFetch, World.record,
    hsel, hsearch]
  by_cases h0 : ids.length = 0
  · simp [h0]
  · simp only [h0, if_false]
    rcases hs : scanMessages p (c.Fetch ids s2).1.1 [] none with ⟨attachments, errs⟩
    have ha := scanMessages_attachments p (c.Fetch ids s2).1.1 [] none
    rw [hs] at ha
    simp only [List.nil_append] at ha
    dsimp only
    subst ha
    cases errors.NewMultiError [errs, Option.map Err.ext (c.Fetch ids s2).1.2] <;> rfl

theorem scanDir_of_select_error {σ : Type} (p : Poller) (c : IMAPClient σ) (dir : String)
    (w : World σ) (err : String) (h : (c.Select dir w.session).1 = some err) :
    (scanDir p c dir w).1 = ([], some (Err.ext err)) := by
  unfold scanDir
  simp only [IMAPClient.doSelect, h]

/-- C6: when `Select` and `Search` succeed, the attachments `scanDir` returns
are the concatenation, in stream order, of the attachments `parseMessage`
yields for each message of the fetch stream (there is no fetch, and no
message, when nothing is unread), whatever the completion signal says; and a
message on which `parseMessage` fails yields none. -/
theorem scanDir_attachments {σ : Type} (p : Poller) (c : IMAPClient σ) (dir : String)
    (w : World σ) (ids : List Nat) (s1 s2 : σ)
    (hsel : c.Select dir w.session = (none, s1))
    (hsearch : c.Search s1 = (Except.ok ids, s2)) :
    (scanDir p c dir w).1.1 =
      (if ids.length = 0 then [] else (c.Fetch ids s2).1.1).flatMap
        (fun msg => (parseMessage p msg).1) ∧
    ∀ msg, (parseMessage p msg).2 ≠ none → (parseMessage p msg).1 = [] := by
  refine ⟨?_, ?_⟩
  · rw [scanDir_of_search_ok p c dir w ids s1 s2 hsel hsearch]
  · intro msg h
    exact (parseMessage_error_nil p msg).resolve_left h

/-- Witness of C6: the first message of "INBOX" cannot be read, the second
one still yields its attachment. -/
theorem scanDir_attachments_witness :
    (scanDir openPoller mailbox "INBOX" idle).1.1 = [goodAttachment] :=
  (scanDir_attachments openPoller mailbox "INBOX" idle [1, 2] () () rfl rfl).1.trans rfl

/-- C2 fails on "INBOX" of `mailbox`: `Select` and `Search` succeed, the
first fetched message makes `parseMessage` fail, and `scanDir` returns a `nil`
error. -/
theorem scanDir_drops_parse_failure :
    mailbox.Select "INBOX" idle.session = (none, ()) ∧
    mailbox.Search () = (Except.ok [1, 2], ()) ∧
    mailbox.Fetch [1, 2] () = (([unreadableMessage, scanMessage], none), ()) ∧
    (parseMessage openPoller unreadableMessage).2 =
      some (errors.Wrap "could not read message" (Err.ext "malformed MIME header line")) ∧
    (scanDir openPoller mailbox "INBOX" idle).1 = ([goodAttachment], none) :=
  ⟨rfl, rfl, rfl, rfl, rfl⟩

/-! ## Scanning all directories -/

theorem NewMultiError_aggregate (cs : List Err) (e : String) :
    errors.NewMultiError [aggregate cs, some (Err.ext e)] = aggregate (cs ++ [Err.ext e]) := by
  cases cs with
  | nil => rfl
  | cons c cs => simp [errors.NewMultiError, aggregate, errors.causesOf, List.flatMap_cons]

theorem scanDirsLoop_attachments {σ : Type} (p : Poller) (c : IMAPClient σ)
    (dirs : List String) :
    ∀ (atts : List Attachment) (errs : Option Err) (w : World σ),
      (scanDirsLoop p c dirs atts errs w).1.1 =
        atts ++ (dirRuns p c dirs w).flatMap (fun r => r.attachments) := by
  induction dirs with
  | nil => intro atts errs w; simp [scanDirsLoop, dirRuns]
  | cons dir rest ih =>
    intro atts errs w
    unfold scanDirsLoop
    rcases h : scanDir p c dir w with ⟨⟨attach, e⟩, w1⟩
    cases e with
    | none => simp [dirRuns, h, ih]
    | some err => simp [dirRuns, h, ih]

theorem scanDirsLoop_error {σ : Type} (p : Poller) (c : IMAPClient σ) (dirs : List String) :
    ∀ (cs : List Err) (atts : List Attachment) (w : World σ),
      (∀ r ∈ dirRuns p c dirs w, r.err = r.selectErr.map Err.ext) →
      (scanDirsLoop p c dirs atts (aggregate cs) w).1.2 =
        aggregate (cs ++ selectFailures (dirRuns p c dirs w)) := by
  induction dirs with
  | nil => intro cs atts w _; simp [scanDirsLoop, dirRuns, selectFailures]
  | cons dir rest ih =>
    intro cs atts w h
    have hhead := h _ (List.mem_cons_self _ _)
    have htail : ∀ r ∈ dirRuns p c rest (scanDir p c dir w).2,
        r.err = r.selectErr.map Err.ext :=
      fun r hr => h r (List.mem_cons_of_mem _ hr)
    dsimp only at hhead
    unfold scanDirsLoop
    rcases hs : scanDir p c dir w with ⟨⟨attach, e⟩, w1⟩
    rw [hs] at hhead htail
    dsimp only at hhead htail
    cases hsel : (c.Select dir w.session).1 with
    | none =>
      rw [hsel] at hhead
      simp only [Option.map_none'] at hhead
      subst hhead
      dsimp only
      rw [ih cs _ w1 htail]
      simp [dirRuns, hs, hsel, selectFailures]
    | some e1 =>
      rw [hsel] at hhead
      simp only [Option.map_some'] at hhead
      subst hhead
      dsimp only
      rw [NewMultiError_aggregate, ih (cs ++ [Err.ext e1]) _ w1 htail]
      simp [dirRuns, hs, hsel, selectFailures]

theorem dirRuns_select_error {σ : Type} (p : Poller) (c : IMAPClient σ) (dirs : List String) :
    ∀ (w : World σ), ∀ r ∈ dirRuns p c dirs w, ∀ e, r.selectErr = some e →
      r.attachments = [] ∧ r.err = some (Err.ext e) := by
  induction dirs with
  | nil => intro w r hr; simp [dirRuns] at hr
  | cons dir rest ih =>
    intro w r hr e he
    rw [dirRuns, List.mem_cons] at hr
    rcases hr with rfl | hr
    · dsimp only at he ⊢
      rw [scanDir_of_select_error p c dir w e he]
      exact ⟨rfl, rfl⟩
    · exact ih _ r hr e he

theorem dirRuns_length {σ : Type} (p : Poller) (c : IMAPClient σ) (dirs : List String) :
    ∀ (w : World σ), (dirRuns p c dirs w).length = dirs.length := by
  induction dirs with
  | nil => intro w; rfl
  | cons dir rest ih => intro w; simp [dirRuns, ih]

theorem flatMap_selected (runs : List DirRun)
    (h : ∀ r ∈ runs, ∀ e, r.selectErr = some e → r.attachments = []) :
    runs.flatMap (fun r => r.attachments) =
      (selected runs).flatMap (fun r => r.attachments) := by
  induction runs with
  | nil => rfl
  | cons r rest ih =>
    have ih2 := ih (fun q hq => h q (List.mem_cons_of_mem _ hq))
    unfold selected at ih2 ⊢
    cases hsel : r.selectErr with
    | none => simp [List.filter_cons, hsel, ih2]
    | some e =>
      have := h r (List.mem_cons_self _ _) e hsel
      simp [List.filter_cons, hsel, ih2, this]

theorem selectFailures_length (runs : List DirRun) :
    (selectFailures runs).length = runs.countP (fun r => r.selectErr.isSome) := by
  unfold selectFailures
  rw [List.length_map]
  induction runs with
  | nil => rfl
  | cons r rest ih =>
    cases hsel : r.selectErr with
    | none => simp [List.filterMap_cons, List.countP_cons, hsel, ih]
    | some e => simp [List.filterMap_cons, List.countP_cons, hsel, ih]

theorem selected_length (runs : List DirRun) :
    (selected runs).length = runs.length - runs.countP (fun r => r.selectErr.isSome) := by
  unfold selected
  induction runs with
  | nil => rfl
  | cons r rest ih =>
    have hle : rest.countP (fun r => r.selectErr.isSome) ≤ rest.length := List.countP_le_length _
    cases hsel : r.selectErr with
    | none =>
      simp only [List.filter_cons, hsel, Option.isNone_none, if_true, List.length_cons,
        List.countP_cons, Option.isSome_none, ih]
      simp only [Bool.false_eq_true, if_false]
      omega
    | some e =>
      simp only [List.filter_cons, hsel, Option.isNone_some, List.length_cons,
        List.countP_cons, Option.isSome_some, ih, if_true]
      simp only [Bool.false_eq_true, if_false]
      omega

theorem connectAndLock_success {σ : Type} (cp : ConnectionPool σ) (w w1 : World σ)
    (h : cp.ConnectAndLock w = some (none, w1)) :
    w1.locked = true ∧ w1.calls = w.calls ++ [{ call := Call.connectAndLock, locked := false }] := by
  unfold ConnectionPool.ConnectAndLock at h
  cases hl : w.locked with
  | true => simp [hl] at h
  | false =>
    rcases hc : cp.connect w.session with ⟨e, s⟩
    cases e with
    | none =>
      simp [hl, hc, World.record] at h
      subst h
      exact ⟨rfl, rfl⟩
    | some err => simp [hl, hc] at h

theorem connectAndLock_failure {σ : Type} (cp : ConnectionPool σ) (w w1 : World σ) (err : Err)
    (h : cp.ConnectAndLock w = some (some err, w1)) :
    w1.locked = false ∧ w1.calls = w.calls ++ [{ call := Call.connectAndLock, locked := false }] := by
  unfold ConnectionPool.ConnectAndLock at h
  cases hl : w.locked with
  | true => simp [hl] at h
  | false =>
    rcases hc : cp.connect w.session with ⟨e, s⟩
    cases e with
    | none => simp [hl, hc] at h
    | some err1 =>
      simp [hl, hc, World.record] at h
      obtain ⟨_, h⟩ := h
      subst h
      exact ⟨rfl, rfl⟩

/-- C3: when `ConnectAndLock` succeeds, `N` directories are configured, `M` of
them fail at `Select` and the others scan without error, `Poll` returns the
attachments of the directories whose `Select` succeeded, concatenated in
configured order; its error is `nil` when `M = 0`, and otherwise the
aggregate of the `M` `Select` errors, in directory order, under the message
"error scanning directories"; `N - M` directories contribute attachments. -/
theorem Poll_select_failures {σ : Type} (p : Poller) (cp : ConnectionPool σ)
    (c : IMAPClient σ) (w w1 : World σ) (N M : Nat)
    (hconn : cp.ConnectAndLock w = some (none, w1))
    (hN : p.config.SourceDirectories.length = N)
    (hM : (dirRuns p c p.config.SourceDirectories w1).countP
      (fun r => r.selectErr.isSome) = M)
    (hok : ∀ r ∈ dirRuns p c p.config.SourceDirectories w1,
      r.selectErr = none → r.err = none) :
    (∃ w2, Poll p cp c w = some
      (((selected (dirRuns p c p.config.SourceDirectories w1)).flatMap
          (fun r => r.attachments),
        if M = 0 then none
        else some (errors.Wrap "error scanning directories"
          (Err.multi (selectFailures (dirRuns p c p.config.SourceDirectories w1))))),
       w2)) ∧
    (selectFailures (dirRuns p c p.config.SourceDirectories w1)).length = M ∧
    (selected (dirRuns p c p.config.SourceDirectories w1)).length = N - M := by
  have hlen := selectFailures_length (dirRuns p c p.config.SourceDirectories w1)
  rw [hM] at hlen
  have hsl := selected_length (dirRuns p c p.config.SourceDirectories w1)
  rw [hM, dirRuns_length, hN] at hsl
  refine ⟨?_, hlen, hsl⟩
  have herr : ∀ r ∈ dirRuns p c p.config.SourceDirectories w1,
      r.err = r.selectErr.map Err.ext := by
    intro r hr
    cases hsel : r.selectErr with
    | none => simpa using hok r hr hsel
    | some e => simpa using (dirRuns_select_error p c _ w1 r hr e hsel).2
  have h1 := scanDirsLoop_attachments p c p.config.SourceDirectories [] none w1
  have h2 := scanDirsLoop_error p c p.config.SourceDirectories [] [] w1 herr
  rw [List.nil_append, flatMap_selected _
    (fun r hr e he => (dirRuns_select_error p c _ w1 r hr e he).1)] at h1
  rw [List.nil_append] at h2
  unfold Poll
  rw [hconn]
  dsimp only
  unfold scanDirs
  change (scanDirsLoop p c p.config.SourceDirectories [] none w1).1.2 = _ at h2
  rcases hs : scanDirsLoop p c p.config.SourceDirectories [] none w1 with ⟨⟨atts, e⟩, w2⟩
  rw [hs] at h1 h2
  dsimp only at h1 h2
  subst h1
  cases hf : selectFailures (dirRuns p c p.config.SourceDirectories w1) with
  | nil =>
    rw [hf] at h2 hlen
    have hM0 : M = 0 := by simpa using hlen.symm
    simp only [aggregate] at h2
    subst h2
    exact ⟨Unlock w2, by simp [hM0]⟩
  | cons c1 cs =>
    rw [hf] at h2 hlen
    have hM0 : ¬ M = 0 := by
      intro h0
      rw [h0] at hlen
      simp at hlen
    simp only [aggregate] at h2
    subst h2
    exact ⟨Unlock w2, by simp [hM0]⟩

/-- Witness of C3: of the two configured directories, "INBOX" is scanned and
"Archive" fails at `Select`. -/
theorem Poll_select_failures_witness :
    ∃ w2, Poll openPoller reachablePool mailbox idle = some
      (([goodAttachment],
        some (errors.Wrap "error scanning directories"
          (Err.multi [Err.ext "NO Mailbox doesn't exist"]))), w2) :=
  (Poll_select_failures openPoller reachablePool mailbox idle connected 2 1 rfl rfl rfl
    (List.forall_mem_cons.2 ⟨fun _ => rfl,
      List.forall_mem_cons.2 ⟨fun h => Option.noConfusion h,
        fun _ h => nomatch h⟩⟩)).1

/-! ## The call record of a scan -/

theorem scanDir_record {σ : Type} (p : Poller) (c : IMAPClient σ) (dir : String)
    (w : World σ) :
    (scanDir p c dir w).2.locked = w.locked ∧
    ∃ new, (scanDir p c dir w).2.calls =
        w.calls ++ { call := Call.select dir, locked := w.locked } :: new ∧
      ∀ e ∈ new, e.locked = w.locked ∧ e.call.isScan = true ∧ e.call.selected = none := by
  unfold scanDir
  simp only [IMAPClient.doSelect, IMAPClient.doSearch, IMAPClient.doFetch, World.record]
  rcases hsel : c.Select dir w.session with ⟨se, s1⟩
  cases se with
  | some err => exact ⟨rfl, [], by simp, by simp⟩
  | none =>
    dsimp only
    rcases hsearch : c.Search s1 with ⟨sr, s2⟩
    cases sr with
    | error err =>
      refine ⟨rfl, [{ call := Call.search, locked := w.locked }], by simp, ?_⟩
      intro e he
      simp only [List.mem_singleton] at he
      subst he
      exact ⟨rfl, rfl, rfl⟩
    | ok ids =>
      dsimp only
      by_cases h0 : ids.length = 0
      · rw [if_pos h0]
        refine ⟨rfl, [{ call := Call.search, locked := w.locked }], by simp, ?_⟩
        intro e he
        simp only [List.mem_singleton] at he
        subst he
        exact ⟨rfl, rfl, rfl⟩
      · rw [if_neg h0]
        rcases scanMessages p (c.Fetch ids s2).1.1 [] none with ⟨attachments, errs⟩
        dsimp only
        have key : ∀ e ∈ [({ call := Call.search, locked := w.locked } : Entry),
            { call := Call.fetch ids, locked := w.locked }],
            e.locked = w.locked ∧ e.call.isScan = true ∧ e.call.selected = none := by
          intro e he
          simp only [List.mem_cons, List.mem_singleton, List.not_mem_nil, or_false] at he
          rcases he with rfl | rfl <;> exact ⟨rfl, rfl, rfl⟩
        cases errors.NewMultiError [errs, Option.map Err.ext (c.Fetch ids s2).1.2] with
        | none => exact ⟨rfl, _, by simp, key⟩
        | some e1 => exact ⟨rfl, _, by simp, key⟩

theorem scanDirsLoop_record {σ : Type} (p : Poller) (c : IMAPClient σ) (dirs : List String) :
    ∀ (atts : List Attachment) (errs : Option Err) (w : World σ),
      (scanDirsLoop p c dirs atts errs w).2.locked = w.locked ∧
      ∃ new, (scanDirsLoop p c dirs atts errs w).2.calls = w.calls ++ new ∧
        (∀ e ∈ new, e.locked = w.locked ∧ e.call.isScan = true) ∧
        new.filterMap (fun e => e.call.selected) = dirs := by
  induction dirs with
  | nil => intro atts errs w; exact ⟨rfl, [], by simp [scanDirsLoop], by simp, rfl⟩
  | cons dir rest ih =>
    intro atts errs w
    obtain ⟨hl, new1, hc1, hn1⟩ := scanDir_record p c dir w
    have step : ∀ atts1 errs1,
        (scanDirsLoop p c rest atts1 errs1 (scanDir p c dir w).2).2.locked = w.locked ∧
        ∃ new, (scanDirsLoop p c rest atts1 errs1 (scanDir p c dir w).2).2.calls =
            w.calls ++ new ∧
          (∀ e ∈ new, e.locked = w.locked ∧ e.call.isScan = true) ∧
          new.filterMap (fun e => e.call.selected) = dir :: rest := by
      intro atts1 errs1
      obtain ⟨hl2, new2, hc2, hn2, hd2⟩ := ih atts1 errs1 (scanDir p c dir w).2
      refine ⟨hl2.trans hl, ({ call := Call.select dir, locked := w.locked } :: new1) ++ new2,
        ?_, ?_, ?_⟩
      · rw [hc2, hc1]; simp
      · intro e he
        simp only [List.cons_append, List.mem_cons, List.mem_append] at he
        rcases he with rfl | he | he
        · exact ⟨rfl, rfl⟩
        · exact ⟨(hn1 e he).1, (hn1 e he).2.1⟩
        · exact ⟨(hn2 e he).1.trans hl, (hn2 e he).2⟩
      · have hnone : new1.filterMap (fun e => e.call.selected) = [] := by
          rw [List.filterMap_eq_nil_iff]
          exact fun e he => (hn1 e he).2.2
        rw [List.filterMap_append, List.filterMap_cons, hnone, hd2]
        rfl
    unfold scanDirsLoop
    rcases hs : scanDir p c dir w with ⟨⟨attach, e⟩, w1⟩
    rw [hs] at step
    cases e with
    | none => exact step _ _
    | some err => exact step _ _

theorem Poll_of_connected {σ : Type} (p : Poller) (cp : ConnectionPool σ) (c : IMAPClient σ)
    (w w1 : World σ) (hconn : cp.ConnectAndLock w = some (none, w1)) :
    ∃ r, Poll p cp c w = some (r, Unlock (scanDirs p c w1).2) := by
  unfold Poll
  rw [hconn]
  dsimp only
  rcases hs : scanDirs p c w1 with ⟨⟨atts, e⟩, w2⟩
  cases e with
  | none => exact ⟨_, rfl⟩
  | some err => exact ⟨_, rfl⟩

/-- C7: when `ConnectAndLock` fails, `Poll` returns that error and an empty
attachment sequence, in the world `ConnectAndLock` left: the call record has
grown by the `ConnectAndLock` call only, so no directory was selected,
searched or fetched. -/
theorem Poll_connect_failure {σ : Type} (p : Poller) (cp : ConnectionPool σ)
    (c : IMAPClient σ) (w w1 : World σ) (err : Err)
    (hconn : cp.ConnectAndLock w = some (some err, w1)) :
    Poll p cp c w = some (([], some err), w1) ∧
    w1.calls = w.calls ++ [{ call := Call.connectAndLock, locked := false }] := by
  refine ⟨?_, (connectAndLock_failure cp w w1 err hconn).2⟩
  unfold Poll
  rw [hconn]

/-- Witness of C7, on a pool whose connection attempt is refused. -/
theorem Poll_connect_failure_witness :
    Poll openPoller unreachablePool mailbox idle =
      some (([], some (Err.ext "dial tcp: connection refused")),
        { session := (), locked := false,
          calls := [{ call := Call.connectAndLock, locked := false }] }) ∧
    ({ session := (), locked := false,
       calls := [{ call := Call.connectAndLock, locked := false }] } : World Unit).calls =
      idle.calls ++ [{ call := Call.connectAndLock, locked := false }] :=
  Poll_connect_failure openPoller unreachablePool mailbox idle
    { session := (), locked := false,
      calls := [{ call := Call.connectAndLock, locked := false }] }
    (Err.ext "dial tcp: connection refused") rfl

/-- C8: when `ConnectAndLock` succeeds, `Poll` returns, and the calls it
makes are: `ConnectAndLock`, then the session calls of the scan, each made
with the lock held and selecting the configured directories in order, then
one `Unlock`, made with the lock held, as the last call, whatever the scan
returned; the lock is free afterwards. -/
theorem Poll_lock_discipline {σ : Type} (p : Poller) (cp : ConnectionPool σ)
    (c : IMAPClient σ) (w w1 : World σ)
    (hconn : cp.ConnectAndLock w = some (none, w1)) :
    ∃ r w2 scan, Poll p cp c w = some (r, w2) ∧
      w2.calls = w.calls ++ [{ call := Call.connectAndLock, locked := false }] ++ scan ++
        [{ call := Call.unlock, locked := true }] ∧
      (∀ e ∈ scan, e.locked = true ∧ e.call.isScan = true) ∧
      scan.filterMap (fun e => e.call.selected) = p.config.SourceDirectories ∧
      w2.locked = false := by
  obtain ⟨r, hr⟩ := Poll_of_connected p cp c w w1 hconn
  obtain ⟨hl1, hc1⟩ := connectAndLock_success cp w w1 hconn
  obtain ⟨hl, scan, hc, hn, hd⟩ :=
    scanDirsLoop_record p c p.config.SourceDirectories [] none w1
  refine ⟨r, _, scan, hr, ?_, ?_, hd, rfl⟩
  · unfold scanDirs
    simp only [Unlock, World.record, hc, hc1, hl, hl1]
  · intro e he
    exact ⟨(hn e he).1.trans hl1, (hn e he).2⟩

/-- Witness of C8, on the two directories of `openPoller`. -/
theorem Poll_lock_discipline_witness :
    ∃ r w2 scan, Poll openPoller reachablePool mailbox idle = some (r, w2) ∧
      w2.calls = idle.calls ++ [{ call := Call.connectAndLock, locked := false }] ++ scan ++
        [{ call := Call.unlock, locked := true }] ∧
      (∀ e ∈ scan, e.locked = true ∧ e.call.isScan = true) ∧
      scan.filterMap (fun e => e.call.selected) = openPoller.config.SourceDirectories ∧
      w2.locked = false :=
  Poll_lock_discipline openPoller reachablePool mailbox idle connected rfl

/-! ## The polling loop -/

theorem counts_of_scan (scan : List Entry) (h : ∀ e ∈ scan, e.call.isScan = true) :
    pollsStarted scan = 0 ∧ uploadsMade scan = 0 ∧ waitsMade scan = 0 := by
  unfold pollsStarted uploadsMade waitsMade
  refine ⟨?_, ?_, ?_⟩ <;>
  · rw [List.countP_eq_zero]
    intro e he
    have hs := h e he
    cases hc : e.call <;> simp [hc, Call.isScan] at hs ⊢

theorem Poll_unlocked {σ : Type} (p : Poller) (cp : ConnectionPool σ) (c : IMAPClient σ)
    (w : World σ) (hfree : w.locked = false) :
    ∃ r w1 new, Poll p cp c w = some (r, w1) ∧ w1.locked = false ∧
      w1.calls = w.calls ++ { call := Call.connectAndLock, locked := false } :: new ∧
      pollsStarted new = 0 ∧ uploadsMade new = 0 ∧ waitsMade new = 0 := by
  rcases hc : cp.connect w.session with ⟨e, s⟩
  cases e with
  | some err =>
    have hconn : cp.ConnectAndLock w = some (some err,
        { (w.record Call.connectAndLock) with session := s, locked := false }) := by
      simp [ConnectionPool.ConnectAndLock, hfree, hc]
    refine ⟨([], some err),
      { (w.record Call.connectAndLock) with session := s, locked := false }, [],
      ?_, rfl, ?_, rfl, rfl, rfl⟩
    · unfold Poll
      rw [hconn]
    · simp [World.record, hfree]
  | none =>
    have hconn : cp.ConnectAndLock w = some (none,
        { (w.record Call.connectAndLock) with session := s, locked := true }) := by
      simp [ConnectionPool.ConnectAndLock, hfree, hc]
    generalize ({ (w.record Call.connectAndLock) with session := s, locked := true } :
      World σ) = w1 at hconn
    obtain ⟨r, hr⟩ := Poll_of_connected p cp c w w1 hconn
    obtain ⟨hl1, hc1⟩ := connectAndLock_success cp w w1 hconn
    obtain ⟨hl, scan, hcs, hn, _⟩ :=
      scanDirsLoop_record p c p.config.SourceDirectories [] none w1
    obtain ⟨h1, h2, h3⟩ := counts_of_scan scan (fun e he => (hn e he).2)
    refine ⟨r, _, scan ++ [{ call := Call.unlock, locked := true }], hr, rfl, ?_, ?_, ?_, ?_⟩
    · unfold scanDirs
      simp only [Unlock, World.record, hcs, hc1, hl, hl1]
      simp
    · unfold pollsStarted at h1 ⊢
      rw [List.countP_append, h1]
      rfl
    · unfold uploadsMade at h2 ⊢
      rw [List.countP_append, h2]
      rfl
    · unfold waitsMade at h3 ⊢
      rw [List.countP_append, h3]
      rfl

theorem Poll_some_unlocked {σ : Type} (p : Poller) (cp : ConnectionPool σ) (c : IMAPClient σ)
    (w : World σ) (r : List Attachment × Option Err) (w1 : World σ)
    (h : Poll p cp c w = some (r, w1)) : w.locked = false := by
  cases hl : w.locked with
  | false => rfl
  | true => simp [Poll, ConnectionPool.ConnectAndLock, hl] at h

theorem StartPollingLoop_extends {σ : Type} (p : Poller) (cp : ConnectionPool σ)
    (c : IMAPClient σ) (uploader : Uploader σ) (ctxDone : Nat → Bool) (fuel : Nat) :
    ∀ (i : Nat) (w : World σ) (r : Option Err) (w2 : World σ),
      StartPollingLoop p cp c uploader ctxDone fuel i w = some (r, w2) →
      ∃ rest, w2.calls = w.calls ++ rest := by
  induction fuel with
  | zero => intro i w r w2 h; simp [StartPollingLoop] at h
  | succ fuel ih =>
    intro i w r w2 h
    unfold StartPollingLoop at h
    rcases hp : Poll p cp c w with _ | ⟨⟨attachments, err⟩, w1⟩
    · rw [hp] at h; simp at h
    · rw [hp] at h
      have hfree := Poll_some_unlocked p cp c w _ _ hp
      obtain ⟨r1, w1b, new, hp2, _, hcalls, _⟩ := Poll_unlocked p cp c w hfree
      rw [hp] at hp2
      simp only [Option.some.injEq, Prod.mk.injEq] at hp2
      obtain ⟨_, hw⟩ := hp2
      subst hw
      dsimp only [Uploader.doUpload] at h
      cases hd : ctxDone i with
      | true =>
        rw [hd] at h
        simp only [if_true, Option.some.injEq, Prod.mk.injEq] at h
        obtain ⟨_, hw⟩ := h
        subst hw
        exact ⟨_, by simp [World.record, hcalls]; rfl⟩
      | false =>
        rw [hd] at h
        simp only [Bool.false_eq_true, if_false] at h
        obtain ⟨rest, hrest⟩ := ih _ _ _ _ h
        exact ⟨_, by rw [hrest]; simp [World.record, hcalls]; rfl⟩

theorem counts_of_cycle (new : List Entry) (attachments : List Attachment) (b : Bool)
    (h1 : pollsStarted new = 0) (h2 : uploadsMade new = 0) (h3 : waitsMade new = 0) :
    pollsStarted ({ call := Call.connectAndLock, locked := false } :: new ++
      [{ call := Call.upload attachments, locked := false },
       { call := Call.wait b, locked := false }]) = 1 ∧
    uploadsMade ({ call := Call.connectAndLock, locked := false } :: new ++
      [{ call := Call.upload attachments, locked := false },
       { call := Call.wait b, locked := false }]) = 1 ∧
    waitsMade ({ call := Call.connectAndLock, locked := false } :: new ++
      [{ call := Call.upload attachments, locked := false },
       { call := Call.wait b, locked := false }]) = 1 := by
  unfold pollsStarted uploadsMade waitsMade at *
  refine ⟨?_, ?_, ?_⟩
  · rw [List.cons_append, List.countP_cons, List.countP_append, h1]; rfl
  · rw [List.cons_append, List.countP_cons, List.countP_append, h2]; rfl
  · rw [List.cons_append, List.countP_cons, List.countP_append, h3]; rfl

theorem cycle_world {σ : Type} (uploader : Uploader σ) (attachments : List Attachment)
    (b : Bool) (w w1 : World σ) (new : List Entry) (hl1 : w1.locked = false)
    (hc1 : w1.calls = w.calls ++ { call := Call.connectAndLock, locked := false } :: new) :
    ((uploader.doUpload attachments w1).2.record (Call.wait b)).locked = false ∧
    ((uploader.doUpload attachments w1).2.record (Call.wait b)).calls =
      w.calls ++ ({ call := Call.connectAndLock, locked := false } :: new ++
        [{ call := Call.upload attachments, locked := false },
         { call := Call.wait b, locked := false }]) := by
  simp [Uploader.doUpload, World.record, hl1, hc1]

theorem StartPollingLoop_cancelled {σ : Type} (p : Poller) (cp : ConnectionPool σ)
    (c : IMAPClient σ) (uploader : Uploader σ) (ctxDone : Nat → Bool) (k : Nat) :
    ∀ (fuel i : Nat) (w : World σ), w.locked = false → k < fuel →
      ctxDone (i + k) = true → (∀ j, j < k → ctxDone (i + j) = false) →
      ∃ w2 new, StartPollingLoop p cp c uploader ctxDone fuel i w = some (none, w2) ∧
        w2.locked = false ∧ w2.calls = w.calls ++ new ∧
        new.getLast? = some { call := Call.wait true, locked := false } ∧
        pollsStarted new = k + 1 ∧ uploadsMade new = k + 1 ∧ waitsMade new = k + 1 := by
  induction k with
  | zero =>
    intro fuel i w hfree hfuel hdone _
    obtain ⟨f, rfl⟩ : ∃ f, fuel = f + 1 := ⟨fuel - 1, by omega⟩
    obtain ⟨r, w1, new, hp, hl1, hc1, n1, n2, n3⟩ := Poll_unlocked p cp c w hfree
    rcases r with ⟨attachments, err⟩
    obtain ⟨hl2, hc2⟩ := cycle_world uploader attachments true w w1 new hl1 hc1
    obtain ⟨m1, m2, m3⟩ := counts_of_cycle new attachments true n1 n2 n3
    rw [Nat.add_zero] at hdone
    refine ⟨_, _, ?_, hl2, hc2, ?_, m1, m2, m3⟩
    · unfold StartPollingLoop
      rw [hp]
      simp only [hdone, if_true]
    · rw [List.getLast?_append]
      rfl
  | succ k ih =>
    intro fuel i w hfree hfuel hdone hbefore
    obtain ⟨f, rfl⟩ : ∃ f, fuel = f + 1 := ⟨fuel - 1, by omega⟩
    obtain ⟨r, w1, new, hp, hl1, hc1, n1, n2, n3⟩ := Poll_unlocked p cp c w hfree
    rcases r with ⟨attachments, err⟩
    obtain ⟨hl2, hc2⟩ := cycle_world uploader attachments false w w1 new hl1 hc1
    obtain ⟨m1, m2, m3⟩ := counts_of_cycle new attachments false n1 n2 n3
    have h0 : ctxDone i = false := by simpa using hbefore 0 (by omega)
    have hdone2 : ctxDone (i + 1 + k) = true := by
      rw [show i + 1 + k = i + (k + 1) by omega]; exact hdone
    have hbefore2 : ∀ j, j < k → ctxDone (i + 1 + j) = false := by
      intro j hj
      rw [show i + 1 + j = i + (j + 1) by omega]
      exact hbefore (j + 1) (by omega)
    obtain ⟨w2, new2, hrec, hl3, hc3, hlast, q1, q2, q3⟩ :=
      ih f (i + 1) _ hl2 (by omega) hdone2 hbefore2
    refine ⟨w2, ({ call := Call.connectAndLock, locked := false } :: new ++
        [{ call := Call.upload attachments, locked := false },
         { call := Call.wait false, locked := false }]) ++ new2, ?_, hl3, ?_, ?_, ?_, ?_, ?_⟩
    · unfold StartPollingLoop
      rw [hp]
      simp only [h0, Bool.false_eq_true, if_false]
      exact hrec
    · rw [hc3, hc2, List.append_assoc]
    · rw [List.getLast?_append, hlast]
      rfl
    · unfold pollsStarted at m1 q1 ⊢
      rw [List.countP_append, m1, q1]; omega
    · unfold uploadsMade at m2 q2 ⊢
      rw [List.countP_append, m2, q2]; omega
    · unfold waitsMade at m3 q3 ⊢
      rw [List.countP_append, m3, q3]; omega

/-- C9: when the `select` of the `k`-th wait takes the cancellation signal
(the earlier waits ended by their timers), `StartPolling` returns `nil` given
fuel for `k + 1` cycles, with the lock free; the cancelled wait is the last
call it made, and it started exactly `k + 1` `Poll`s and `k + 1` uploads, one
per wait: no `Poll` and no upload follows the cancelled wait. -/
theorem StartPolling_cancelled_in_wait {σ : Type} (p : Poller) (cp : ConnectionPool σ)
    (c : IMAPClient σ) (uploader : Uploader σ) (ctxDone : Nat → Bool) (k fuel : Nat)
    (w : World σ) (hfree : w.locked = false) (hfuel : k < fuel)
    (hdone : ctxDone k = true) (hbefore : ∀ j, j < k → ctxDone j = false) :
    ∃ w2 new, StartPolling p cp c uploader ctxDone fuel w = some (none, w2) ∧
      w2.locked = false ∧ w2.calls = w.calls ++ new ∧
      new.getLast? = some { call := Call.wait true, locked := false } ∧
      pollsStarted new = k + 1 ∧ uploadsMade new = k + 1 ∧ waitsMade new = k + 1 := by
  unfold StartPolling
  exact StartPollingLoop_cancelled p cp c uploader ctxDone k fuel 0 w hfree hfuel
    (by simpa using hdone) (fun j hj => by simpa using hbefore j hj)

/-- Witness of C9: the signal is taken in the second wait. -/
theorem StartPolling_cancelled_in_wait_witness :
    ∃ w2 new, StartPolling openPoller reachablePool mailbox davUploader
        (fun i => decide (1 ≤ i)) 5 idle = some (none, w2) ∧
      w2.locked = false ∧ w2.calls = idle.calls ++ new ∧
      new.getLast? = some { call := Call.wait true, locked := false } ∧
      pollsStarted new = 1 + 1 ∧ uploadsMade new = 1 + 1 ∧ waitsMade new = 1 + 1 :=
  StartPolling_cancelled_in_wait openPoller reachablePool mailbox davUploader
    (fun i => decide (1 ≤ i)) 1 5 idle rfl (by decide) (by decide)
    (fun j hj => by
      have h0 : j = 0 := by omega
      subst h0
      decide)

theorem StartPollingLoop_step {σ : Type} (p : Poller) (cp : ConnectionPool σ)
    (c : IMAPClient σ) (uploader : Uploader σ) (ctxDone : Nat → Bool) (fuel i : Nat)
    (w w1 : World σ) (attachments : List Attachment) (err : Option Err)
    (hp : Poll p cp c w = some ((attachments, err), w1)) :
    StartPollingLoop p cp c uploader ctxDone (fuel + 1) i w =
      if ctxDone i then
        some (none, (uploader.doUpload attachments w1).2.record (Call.wait true))
      else
        StartPollingLoop p cp c uploader ctxDone fuel (i + 1)
          ((uploader.doUpload attachments w1).2.record (Call.wait false)) := by
  rw [StartPollingLoop, hp]

/-- C10: entered with the lock free, whatever the cancellation signal is,
`StartPolling` first runs `Poll`, which returns, then calls
`UploadAttachments` with the attachments of that `Poll`, and only then looks
at the signal: a run with fuel for one more cycle ends there when the first
wait takes the signal, and otherwise goes on from the world in which one
`Poll`, one upload and one wait are recorded.  Whenever the signal is taken
in some wait, `StartPolling` returns `nil`, and its call record starts with
the calls of that `Poll`, the upload and the first wait.  When the signal is
already cancelled at the first wait (as it is when it was cancelled on
entry), `StartPolling` returns `nil` after this one cycle, for any fuel. -/
theorem StartPolling_first_cycle {σ : Type} (p : Poller) (cp : ConnectionPool σ)
    (c : IMAPClient σ) (uploader : Uploader σ) (ctxDone : Nat → Bool) (w : World σ)
    (hfree : w.locked = false) :
    ∃ attachments err w1 pollCalls,
      Poll p cp c w = some ((attachments, err), w1) ∧
      w1.calls = w.calls ++ { call := Call.connectAndLock, locked := false } :: pollCalls ∧
      waitsMade pollCalls = 0 ∧
      (uploader.doUpload attachments w1).2.calls =
        w1.calls ++ [{ call := Call.upload attachments, locked := false }] ∧
      (∀ fuel, StartPolling p cp c uploader ctxDone (fuel + 1) w =
        if ctxDone 0 then
          some (none, (uploader.doUpload attachments w1).2.record (Call.wait true))
        else
          StartPollingLoop p cp c uploader ctxDone fuel 1
            ((uploader.doUpload attachments w1).2.record (Call.wait false))) ∧
      (∀ k fuel, ctxDone k = true → (∀ j, j < k → ctxDone j = false) → k < fuel →
        ∃ w2 rest, StartPolling p cp c uploader ctxDone fuel w = some (none, w2) ∧
          w2.calls = (uploader.doUpload attachments w1).2.calls ++
            { call := Call.wait (ctxDone 0), locked := false } :: rest) ∧
      (∀ fuel r w2, StartPolling p cp c uploader ctxDone fuel w = some (r, w2) →
        ∃ rest, w2.calls = (uploader.doUpload attachments w1).2.calls ++
          { call := Call.wait (ctxDone 0), locked := false } :: rest) ∧
      (ctxDone 0 = true → ∀ fuel, 0 < fuel →
        StartPolling p cp c uploader ctxDone fuel w =
          some (none, (uploader.doUpload attachments w1).2.record (Call.wait true))) := by
  obtain ⟨r, w1, new, hp, hl1, hc1, _, _, n3⟩ := Poll_unlocked p cp c w hfree
  rcases r with ⟨attachments, err⟩
  have hstep : ∀ fuel, StartPolling p cp c uploader ctxDone (fuel + 1) w =
      if ctxDone 0 then
        some (none, (uploader.doUpload attachments w1).2.record (Call.wait true))
      else
        StartPollingLoop p cp c uploader ctxDone fuel 1
          ((uploader.doUpload attachments w1).2.record (Call.wait false)) := by
    intro fuel
    unfold StartPolling
    exact StartPollingLoop_step p cp c uploader ctxDone fuel 0 w w1 attachments err hp
  have hpre : ∀ fuel r w2, StartPolling p cp c uploader ctxDone fuel w = some (r, w2) →
      ∃ rest, w2.calls = (uploader.doUpload attachments w1).2.calls ++
        { call := Call.wait (ctxDone 0), locked := false } :: rest := by
    intro fuel r w2 h
    cases fuel with
    | zero => simp [StartPolling, StartPollingLoop] at h
    | succ f =>
      rw [hstep f] at h
      cases hd : ctxDone 0 with
      | true =>
        rw [hd] at h
        simp only [if_true, Option.some.injEq, Prod.mk.injEq] at h
        obtain ⟨_, hw⟩ := h
        subst hw
        exact ⟨[], by simp [Uploader.doUpload, World.record, hl1]⟩
      | false =>
        rw [hd] at h
        simp only [Bool.false_eq_true, if_false] at h
        obtain ⟨rest, hrest⟩ := StartPollingLoop_extends p cp c uploader ctxDone f _ _ _ _ h
        exact ⟨rest, by rw [hrest]; simp [Uploader.doUpload, World.record, hl1]⟩
  refine ⟨attachments, err, w1, new, hp, hc1, n3, ?_, hstep, ?_, hpre, ?_⟩
  · simp [Uploader.doUpload, World.record, hl1]
  · intro k fuel hdone hbefore hfuel
    obtain ⟨w2, _, hret, _⟩ := StartPollingLoop_cancelled p cp c uploader ctxDone k fuel 0 w
      hfree hfuel (by simpa using hdone) (fun j hj => by simpa using hbefore j hj)
    have hret2 : StartPolling p cp c uploader ctxDone fuel w = some (none, w2) := hret
    obtain ⟨rest, hrest⟩ := hpre fuel none w2 hret2
    exact ⟨w2, rest, hret2, hrest⟩
  · intro hd fuel hfuel
    obtain ⟨f, rfl⟩ : ∃ f, fuel = f + 1 := ⟨fuel - 1, by omega⟩
    rw [hstep f, hd]
    rfl

/-- Witness of C10: with a signal that is taken in the second wait only, the
first cycle is run on `mailbox` all the same. -/
theorem StartPolling_first_cycle_witness :
    ∃ attachments err w1 pollCalls,
      Poll openPoller reachablePool mailbox idle = some ((attachments, err), w1) ∧
      w1.calls = idle.calls ++ { call := Call.connectAndLock, locked := false } :: pollCalls ∧
      waitsMade pollCalls = 0 ∧
      (davUploader.doUpload attachments w1).2.calls =
        w1.calls ++ [{ call := Call.upload attachments, locked := false }] ∧
      (∀ fuel, StartPolling openPoller reachablePool mailbox davUploader
          cancelledInSecondWait (fuel + 1) idle =
        if cancelledInSecondWait 0 then
          some (none, (davUploader.doUpload attachments w1).2.record (Call.wait true))
        else
          StartPollingLoop openPoller reachablePool mailbox davUploader
            cancelledInSecondWait fuel 1
            ((davUploader.doUpload attachments w1).2.record (Call.wait false))) ∧
      (∀ k fuel, cancelledInSecondWait k = true →
        (∀ j, j < k → cancelledInSecondWait j = false) → k < fuel →
        ∃ w2 rest, StartPolling openPoller reachablePool mailbox davUploader
            cancelledInSecondWait fuel idle = some (none, w2) ∧
          w2.calls = (davUploader.doUpload attachments w1).2.calls ++
            { call := Call.wait (cancelledInSecondWait 0), locked := false } :: rest) ∧
      (∀ fuel r w2, StartPolling openPoller reachablePool mailbox davUploader
          cancelledInSecondWait fuel idle = some (r, w2) →
        ∃ rest, w2.calls = (davUploader.doUpload attachments w1).2.calls ++
          { call := Call.wait (cancelledInSecondWait 0), locked := false } :: rest) ∧
      (cancelledInSecondWait 0 = true → ∀ fuel, 0 < fuel →
        StartPolling openPoller reachablePool mailbox davUploader
          cancelledInSecondWait fuel idle =
          some (none, (davUploader.doUpload attachments w1).2.record (Call.wait true))) :=
  StartPolling_first_cycle openPoller reachablePool mailbox davUploader
    cancelledInSecondWait idle rfl

end Maildav
